import Mathlib

/-!
Shallow embedding of the order/employee data-access layer
(`src/data/orders.js` and the employee repository file).

The database is modelled as lists of rows (one list per table); each
query function is translated from its SQL statement: `WHERE` becomes
`List.filter`, `LEFT JOIN` becomes a flat-map over the (possibly empty,
hence `Option`-padded) list of matching rows, `ORDER BY` becomes a
stable insertion sort on the sort column, and `LIMIT n OFFSET k`
becomes `(·.drop k).take n`.  Monetary values are rationals.

The transactional functions `createOrder` / `updateOrder` are modelled
against an abstract driver `Driver : Stmt → Except OrderError (Option
RunResult)`: each returns the final outcome together with the ordered
trace of SQL statements it dispatched, mirroring the JavaScript control
flow (BEGIN outside the try block, all detail statements dispatched
before `Promise.all` settles, catch-block ROLLBACK followed by a
rethrow of the caught error).
-/

namespace SqlExamples

/-- A row of the `Customer` table (columns the queries read). -/
structure Customer where
  id : String
  contactname : String
deriving DecidableEq

/-- A row of the `Employee` table (columns of `ALL_EMPLOYEES_COLUMNS` plus names). -/
structure Employee where
  id : Nat
  firstname : String
  lastname : String
  region : Option String
  hiredate : Option String
  title : Option String
  reportsto : Option Nat
deriving DecidableEq

/-- A row of the `Product` table (columns the queries read). -/
structure Product where
  id : Nat
  productname : String
deriving DecidableEq

/-- A row of the `CustomerOrder` table (columns the read queries touch). -/
structure OrderRow where
  id : Nat
  customerid : Option String
  employeeid : Option Nat
  shipcity : Option String
  shipcountry : Option String
  shippeddate : Option String
deriving DecidableEq

/-- A row of the `OrderDetail` table. -/
structure OrderDetailRow where
  id : String
  orderid : Nat
  productid : Nat
  unitprice : ℚ
  quantity : ℚ
  discount : ℚ
deriving DecidableEq

/-- The database state: one list of rows per table, in insertion order. -/
structure DB where
  customerOrders : List OrderRow
  orderDetails : List OrderDetailRow
  customers : List Customer
  employees : List Employee
  products : List Product
deriving DecidableEq

/-- `LEFT JOIN` row padding: the matching rows, or a single `none` row
when nothing matches. -/
def leftJoin {α : Type} (matches_ : List α) : List (Option α) :=
  match matches_ with
  | [] => [none]
  | l => l.map some

/-- Sort direction (`'asc' | 'desc'`). -/
inductive SortOrder where
  | asc
  | desc
deriving DecidableEq

/-- The sortable columns of the listing query (`ALL_ORDERS_COLUMNS`). -/
inductive SortCol where
  | id
  | customerid
  | employeeid
  | shipcity
  | shipcountry
  | shippeddate
deriving DecidableEq

/-- `OrderCollectionOptions` with every field optional
(`Partial<OrderCollectionOptions>`). -/
structure PartialOptions where
  order : Option SortOrder := none
  page : Option Nat := none
  perPage : Option Nat := none
  sort : Option SortCol := none
deriving DecidableEq

/-- Fully populated `OrderCollectionOptions`. -/
structure Options where
  order : SortOrder
  page : Nat
  perPage : Nat
  sort : SortCol
deriving DecidableEq

/-- `{...DEFAULT_ORDER_COLLECTION_OPTIONS, ...opts}`. -/
def mergeDefaults (opts : PartialOptions) : Options :=
  { order := opts.order.getD .asc
    page := opts.page.getD 1
    perPage := opts.perPage.getD 20
    sort := opts.sort.getD .id }

/-- `{...DEFAULT_CUSTOMER_ORDER_COLLECTION_OPTIONS, ...opts}` (sort
defaults to `shippeddate`). -/
def mergeCustomerDefaults (opts : PartialOptions) : Options :=
  { order := opts.order.getD .asc
    page := opts.page.getD 1
    perPage := opts.perPage.getD 20
    sort := opts.sort.getD .shippeddate }

/-- View a fully populated option object as a partial one (every field present). -/
def Options.toPartial (o : Options) : PartialOptions :=
  { order := some o.order, page := some o.page, perPage := some o.perPage,
    sort := some o.sort }

/-- Lexicographic comparison on character codes (SQL text comparison). -/
def lexLe : List Char → List Char → Bool
  | [], _ => true
  | _ :: _, [] => false
  | a :: as, b :: bs =>
    if a.toNat < b.toNat then true
    else if b.toNat < a.toNat then false
    else lexLe as bs

/-- SQL comparison of two nullable text values (`NULL` sorts first ascending). -/
def optStrLe (x y : Option String) : Bool :=
  match x, y with
  | none, _ => true
  | some _, none => false
  | some s, some t => lexLe s.data t.data

/-- SQL comparison of two nullable numeric values (`NULL` sorts first ascending). -/
def optNatLe (x y : Option Nat) : Bool :=
  match x, y with
  | none, _ => true
  | some _, none => false
  | some m, some n => m ≤ n

/-- A row produced by the `getAllOrders` listing query:
`ALL_ORDERS_COLUMNS` of `o` plus the two joined display names. -/
structure ListedOrder where
  id : Nat
  customerid : Option String
  employeeid : Option Nat
  shipcity : Option String
  shipcountry : Option String
  shippeddate : Option String
  customername : Option String
  employeename : Option String
deriving DecidableEq

/-- `ORDER BY o.<sort>` comparison of two listed rows, ascending. -/
def colLe (col : SortCol) (a b : ListedOrder) : Bool :=
  match col with
  | .id => a.id ≤ b.id
  | .customerid => optStrLe a.customerid b.customerid
  | .employeeid => optNatLe a.employeeid b.employeeid
  | .shipcity => optStrLe a.shipcity b.shipcity
  | .shipcountry => optStrLe a.shipcountry b.shipcountry
  | .shippeddate => optStrLe a.shippeddate b.shippeddate

/-- `ORDER BY o.<sort> <order>`: ascending or flipped for descending. -/
def rowLe (col : SortCol) (ord : SortOrder) (a b : ListedOrder) : Bool :=
  match ord with
  | .asc => colLe col a b
  | .desc => colLe col b a

/-- Insert into a list sorted by `le`, keeping earlier elements first on ties. -/
def orderedInsert {α : Type} (le : α → α → Bool) (a : α) : List α → List α
  | [] => [a]
  | b :: l => if le a b then a :: b :: l else b :: orderedInsert le a l

/-- Stable sort by the boolean relation `le` (the model of `ORDER BY`). -/
def insertionSort {α : Type} (le : α → α → Bool) : List α → List α
  | [] => []
  | a :: l => orderedInsert le a (insertionSort le l)

/-- The JavaScript truthiness test on the optional `customerId` argument:
`undefined` and the empty string are falsy. -/
def truthyId (customerId : Option String) : Bool :=
  match customerId with
  | none => false
  | some cid => cid ≠ ""

/-- The `WHERE o.customerId = '<cid>'` filter, applied only when the
supplied customer id is truthy. -/
def applyCustomerFilter (customerId : Option String) (rows : List OrderRow) :
    List OrderRow :=
  match customerId with
  | none => rows
  | some cid =>
    if cid = "" then rows
    else rows.filter (fun o => o.customerid = some cid)

/-- The joined, filtered row source of the listing query, before sorting:
`FROM CustomerOrder LEFT JOIN Customer LEFT JOIN Employee [WHERE ...]`. -/
def listingRows (db : DB) (customerId : Option String) : List ListedOrder :=
  (applyCustomerFilter customerId db.customerOrders).flatMap (fun o =>
    (leftJoin (db.customers.filter (fun c => o.customerid = some c.id))).flatMap
      (fun c? =>
        (leftJoin (db.employees.filter (fun e => o.employeeid = some e.id))).map
          (fun e? =>
            { id := o.id
              customerid := o.customerid
              employeeid := o.employeeid
              shipcity := o.shipcity
              shipcountry := o.shipcountry
              shippeddate := o.shippeddate
              customername := c?.map (fun c => c.contactname)
              employeename :=
                e?.map (fun e => e.firstname ++ " " ++ e.lastname) })))

/-- The listing query's result before `LIMIT`/`OFFSET`: joined rows in
the requested `ORDER BY`. -/
def sortedRows (db : DB) (opts : PartialOptions) (customerId : Option String) :
    List ListedOrder :=
  let options := mergeDefaults opts
  insertionSort (rowLe options.sort options.order) (listingRows db customerId)

/-- `getAllOrders(opts, customerId)`: merge defaults, optionally filter by
customer, join display names, sort, then window with
`LIMIT perPage OFFSET (page-1)*perPage`. -/
def getAllOrders (db : DB) (opts : PartialOptions)
    (customerId : Option String) : List ListedOrder :=
  let options := mergeDefaults opts
  ((sortedRows db opts customerId).drop ((options.page - 1) * options.perPage)).take
    options.perPage

/-- `getCustomerOrders(customerId, opts)`: merge the customer-scoped
defaults and delegate to `getAllOrders`, passing the id through. -/
def getCustomerOrders (db : DB) (customerId : String)
    (opts : PartialOptions) : List ListedOrder :=
  getAllOrders db (mergeCustomerDefaults opts).toPartial (some customerId)

/-- The line items of one order, in table (insertion) order:
`OrderDetail WHERE orderid = id`. -/
def orderLineItems (db : DB) (id : Nat) : List OrderDetailRow :=
  db.orderDetails.filter (fun d => d.orderid = id)

/-- The scalar subquery of `getOrder`:
`SELECT sum(unitprice * quantity * (1 - discount)) ... GROUP BY orderid`
is `NULL` when the order has no line items. -/
def orderSubtotal (db : DB) (id : Nat) : Option ℚ :=
  match orderLineItems db id with
  | [] => none
  | ds => some ((ds.map (fun d => d.unitprice * d.quantity * (1 - d.discount))).sum)

/-- A row produced by `getOrder`: note that `customerid` / `employeeid`
are selected from the joined rows (`c.id AS customerid`, `e.id AS employeeid`). -/
structure FetchedOrder where
  id : Nat
  customerid : Option String
  employeeid : Option Nat
  customername : Option String
  employeename : Option String
  subtotal : Option ℚ
deriving DecidableEq

/-- `getOrder(id)`: `db.get` returns the first row of the joined query,
i.e. the first matching order paired with its first matching joins. -/
def getOrder (db : DB) (id : Nat) : Option FetchedOrder :=
  (db.customerOrders.find? (fun o => o.id = id)).map (fun o =>
    let c := db.customers.find? (fun c => o.customerid = some c.id)
    let e := db.employees.find? (fun e => o.employeeid = some e.id)
    { id := o.id
      customerid := c.map (fun c => c.id)
      employeeid := e.map (fun e => e.id)
      customername := c.map (fun c => c.contactname)
      employeename := e.map (fun e => e.firstname ++ " " ++ e.lastname)
      subtotal := orderSubtotal db id })

/-- A row produced by `getOrderDetails`. -/
structure FetchedDetail where
  id : String
  price : ℚ
  productname : Option String
  unitprice : ℚ
  quantity : ℚ
  discount : ℚ
deriving DecidableEq

/-- `getOrderDetails(id)`: the order's line items in table order, left
joined with `Product` for the display name, with `price = unitprice * quantity`. -/
def getOrderDetails (db : DB) (id : Nat) : List FetchedDetail :=
  (orderLineItems db id).flatMap (fun d =>
    (leftJoin (db.products.filter (fun p => p.id = d.productid))).map (fun p? =>
      { id := d.id
        price := d.unitprice * d.quantity
        productname := p?.map (fun p => p.productname)
        unitprice := d.unitprice
        quantity := d.quantity
        discount := d.discount }))

/-- `getOrderWithDetails(id)`: compose the two reads. -/
def getOrderWithDetails (db : DB) (id : Nat) :
    Option FetchedOrder × List FetchedDetail :=
  (getOrder db id, getOrderDetails db id)

/-- `deleteOrder(id)`: `DELETE FROM CustomerOrder WHERE id = $1` — only
the `CustomerOrder` table changes. -/
def deleteOrder (db : DB) (id : Nat) : DB :=
  { db with customerOrders := db.customerOrders.filter (fun o => ¬ o.id = id) }

/-- A row of the `getAllEmployees` result: `ALL_EMPLOYEES_COLUMNS` plus
`count(o.employeeid) AS ordercount`. -/
structure ListedEmployee where
  id : Nat
  firstname : String
  lastname : String
  region : Option String
  hiredate : Option String
  title : Option String
  reportsto : Option Nat
  ordercount : Nat
deriving DecidableEq

/-- The `Employee INNER JOIN CustomerOrder ON e.id = o.employeeid` row
source of `getAllEmployees`. -/
def employeeJoin (db : DB) : List (Employee × OrderRow) :=
  db.employees.flatMap (fun e =>
    (db.customerOrders.filter (fun o => o.employeeid = some e.id)).map
      (fun o => (e, o)))

/-- Key deduplication worker: drop keys already `seen`, keep the first
occurrence of each new key. -/
def firstKeysAux (seen : List (Option Nat)) :
    List (Option Nat) → List (Option Nat)
  | [] => []
  | k :: ks =>
    if k ∈ seen then firstKeysAux seen ks
    else k :: firstKeysAux (k :: seen) ks

/-- The distinct values of a key column, in order of first appearance
(the groups of a `GROUP BY`). -/
def firstKeys (l : List (Option Nat)) : List (Option Nat) :=
  firstKeysAux [] l

/-- One output row of `GROUP BY o.employeeid`: the employee columns come
from a row of the group, `count(o.employeeid)` is the group size (every
row of a group has a non-null `o.employeeid`, namely the group key). -/
def groupRow (grp : List (Employee × OrderRow)) : Option ListedEmployee :=
  match grp with
  | [] => none
  | r :: rs =>
    some { id := r.1.id
           firstname := r.1.firstname
           lastname := r.1.lastname
           region := r.1.region
           hiredate := r.1.hiredate
           title := r.1.title
           reportsto := r.1.reportsto
           ordercount := (r :: rs).length }

/-- `getAllEmployees()`: inner join with `CustomerOrder`, grouped by
`o.employeeid`, one row per group with the order count. -/
def getAllEmployees (db : DB) : List ListedEmployee :=
  let rows := employeeJoin db
  (firstKeys (rows.map (fun r => r.2.employeeid))).filterMap (fun k =>
    groupRow (rows.filter (fun r => r.2.employeeid = k)))

/-- `getEmployee(id)`: first `Employee` row matching the id. -/
def getEmployee (db : DB) (id : Nat) : Option Employee :=
  db.employees.find? (fun e => e.id = id)

/-! ### The transactional operations, as statement traces against a driver -/

/-- The header fields passed to the order insert/update statements. -/
structure OrderData where
  employeeid : Option Nat
  customerid : Option String
  shipcity : Option String
  shipaddress : Option String
  shipvia : Option String
  shipregion : Option String
  shipname : Option String
  shipcountry : Option String
  shippostalcode : Option String
  requireddate : Option String
  freight : Option ℚ
deriving DecidableEq

/-- One detail entry passed to `createOrder`. -/
structure DetailData where
  productid : Nat
  unitprice : ℚ
  quantity : ℚ
  discount : ℚ
deriving DecidableEq

/-- One detail entry passed to `updateOrder` (carries its own id). -/
structure DetailUpdateData where
  id : String
  productid : Nat
  unitprice : ℚ
  quantity : ℚ
  discount : ℚ
deriving DecidableEq

/-- The SQL statements the transactional operations dispatch via `db.run`. -/
inductive Stmt where
  | begin
  | commit
  | rollback
  | insertOrder (data : OrderData)
  | insertDetail (id : String) (orderid : Nat) (productid : Nat)
      (unitprice : ℚ) (quantity : ℚ) (discount : ℚ)
  | updateHeader (data : OrderData) (id : Nat)
  | updateDetail (productid : Nat) (unitprice : ℚ) (quantity : ℚ)
      (discount : ℚ) (id : String)
deriving DecidableEq

/-- The value a fulfilled `db.run` resolves to (`lastID` of the driver;
`0` is the falsy "no generated id"). -/
structure RunResult where
  lastID : Nat
deriving DecidableEq

/-- The errors a transactional operation can surface: the header-insert
guard's own error, or an error from the database driver. -/
inductive OrderError where
  | insertionError
  | driverError (code : Nat)
deriving DecidableEq

/-- The database driver: each dispatched statement either rejects with an
error or resolves, possibly to `undefined` (`none`). -/
def Driver : Type := Stmt → Except OrderError (Option RunResult)

/-- Is this statement a detail insert? -/
def Stmt.isInsertDetail : Stmt → Bool
  | .insertDetail _ _ _ _ _ _ => true
  | _ => false

/-- The synthesized id of a detail-insert statement. -/
def stmtDetailId : Stmt → Option String
  | .insertDetail i _ _ _ _ _ => some i
  | _ => none

/-- The detail-insert statements of `createOrder`: the `k`-th entry (0-based)
gets the synthesized id `"<orderid>/<k+1>"` before dispatch. -/
def detailStmts (orderid : Nat) (details : List DetailData) : List Stmt :=
  details.enum.map (fun p =>
    Stmt.insertDetail (toString orderid ++ "/" ++ toString (p.1 + 1)) orderid
      p.2.productid p.2.unitprice p.2.quantity p.2.discount)

/-- The detail-update statements of `updateOrder`. -/
def detailUpdateStmts (details : List DetailUpdateData) : List Stmt :=
  details.map (fun d =>
    Stmt.updateDetail d.productid d.unitprice d.quantity d.discount d.id)

/-- The settled outcome of `Promise.all` over the dispatched statements:
the error of the first rejecting statement, if any. -/
def firstError (drv : Driver) (stmts : List Stmt) : Option OrderError :=
  stmts.findSome? (fun s =>
    match drv s with
    | .error e => some e
    | .ok _ => none)

/-- The catch block of both transactional operations: dispatch `ROLLBACK`,
then rethrow the caught error `e` — unless the rollback itself rejects,
in which case the rollback's error escapes instead. -/
def rollbackAnd {α : Type} (drv : Driver) (e : OrderError)
    (trace : List Stmt) : Except OrderError α × List Stmt :=
  match drv .rollback with
  | .error e2 => (.error e2, trace ++ [.rollback])
  | .ok _ => (.error e, trace ++ [.rollback])

/-- `createOrder(order, details)`: BEGIN (outside the try block), insert
the header, guard on the generated id, dispatch every detail insert,
await them all, COMMIT and return the id — with the catch block rolling
back and rethrowing on any failure inside the try.  Returns the outcome
and the dispatched statement trace. -/
def createOrder (drv : Driver) (order : OrderData)
    (details : List DetailData) : Except OrderError Nat × List Stmt :=
  match drv .begin with
  | .error e => (.error e, [.begin])
  | .ok _ =>
    match drv (.insertOrder order) with
    | .error e => rollbackAnd drv e [.begin, .insertOrder order]
    | .ok none => rollbackAnd drv .insertionError [.begin, .insertOrder order]
    | .ok (some r) =>
      if r.lastID = 0 then
        rollbackAnd drv .insertionError [.begin, .insertOrder order]
      else
        let ds := detailStmts r.lastID details
        let trace := .begin :: .insertOrder order :: ds
        match firstError drv ds with
        | some e => rollbackAnd drv e trace
        | none =>
          match drv .commit with
          | .error e => rollbackAnd drv e (trace ++ [.commit])
          | .ok _ => (.ok r.lastID, trace ++ [.commit])

/-- `updateOrder(id, data, details)`: BEGIN (outside the try block),
update the header, dispatch every detail update, await them all, COMMIT
and return `{id, ...data}` — with the catch block rolling back and
rethrowing on any failure inside the try. -/
def updateOrder (drv : Driver) (id : Nat) (data : OrderData)
    (details : List DetailUpdateData) :
    Except OrderError (Nat × OrderData) × List Stmt :=
  match drv .begin with
  | .error e => (.error e, [.begin])
  | .ok _ =>
    match drv (.updateHeader data id) with
    | .error e => rollbackAnd drv e [.begin, .updateHeader data id]
    | .ok _ =>
      let ds := detailUpdateStmts details
      let trace := .begin :: .updateHeader data id :: ds
      match firstError drv ds with
      | some e => rollbackAnd drv e trace
      | none =>
        match drv .commit with
        | .error e => rollbackAnd drv e (trace ++ [.commit])
        | .ok _ => (.ok (id, data), trace ++ [.commit])

/-! ### Helper lemmas -/

theorem mem_orderedInsert {α : Type} (le : α → α → Bool) (a b : α)
    (l : List α) : a ∈ orderedInsert le b l ↔ a = b ∨ a ∈ l := by
  induction l with
  | nil => simp [orderedInsert]
  | cons c l ih =>
    simp only [orderedInsert]
    split
    · simp
    · simp only [List.mem_cons, ih]
      tauto

theorem mem_insertionSort {α : Type} (le : α → α → Bool) (a : α)
    (l : List α) : a ∈ insertionSort le l ↔ a ∈ l := by
  induction l with
  | nil => simp [insertionSort]
  | cons b l ih =>
    simp only [insertionSort, mem_orderedInsert, ih, List.mem_cons]

/-! ### Claim theorems -/

/-- C7: `deleteOrder` removes only the matching `CustomerOrder` row; the
`OrderDetail` table is untouched, so afterwards `getOrder` finds nothing
for that id while `getOrderDetails` still returns the prior line items
for every id. -/
theorem deleteOrder_frame (db : DB) (id : Nat) :
    (deleteOrder db id).orderDetails = db.orderDetails ∧
    getOrder (deleteOrder db id) id = none ∧
    (∀ j, getOrderDetails (deleteOrder db id) j = getOrderDetails db j) := by
  refine ⟨rfl, ?_, fun j => rfl⟩
  have hnone : (deleteOrder db id).customerOrders.find?
      (fun o => o.id = id) = none := by
    rw [List.find?_eq_none]
    intro o ho
    have := List.of_mem_filter ho
    simpa using this
  simp [getOrder, hnone]

/-- C3: when `getOrder` returns a row, that row is the requested order and
its `subtotal` is the sum of `unitprice * quantity * (1 - discount)` over
the order's line items — and `NULL` when the order has no line items. -/
theorem getOrder_subtotal (db : DB) (id : Nat) (row : FetchedOrder)
    (h : getOrder db id = some row) :
    row.id = id ∧
    (orderLineItems db id = [] → row.subtotal = none) ∧
    (¬ orderLineItems db id = [] →
      row.subtotal = some (((orderLineItems db id).map
        (fun d => d.unitprice * d.quantity * (1 - d.discount))).sum)) := by
  unfold getOrder at h
  cases hf : db.customerOrders.find? (fun o => o.id = id) with
  | none => rw [hf] at h; simp at h
  | some o =>
    rw [hf] at h
    have hrow := Option.some.inj h
    have hid : o.id = id := by simpa using List.find?_some hf
    refine ⟨?_, ?_, ?_⟩
    · rw [← hrow]; exact hid
    · intro hnil
      rw [← hrow]
      simp [orderSubtotal, hnil]
    · intro hne
      rw [← hrow]
      cases hli : orderLineItems db id with
      | nil => exact absurd hli hne
      | cons d ds => simp [orderSubtotal, hli]

/-- Witness database for the subtotal claim: one order with the spec's
two line items `(10, 2, 0.1)` and `(5, 1, 0)`. -/
def subtotalDb : DB :=
  ⟨[⟨1, none, none, none, none, none⟩],
   [⟨"1/1", 1, 1, 10, 2, 1/10⟩, ⟨"1/2", 1, 2, 5, 1, 0⟩],
   [], [], []⟩

/-- The row `getOrder` fetches from `subtotalDb`: its subtotal is
`10*2*0.9 + 5*1*1 = 23`. -/
def subtotalRow : FetchedOrder :=
  ⟨1, none, none, none, none, some 23⟩

/-- Witness for C3 at the spec's concrete example. -/
theorem getOrder_subtotal_witness :
    subtotalRow.id = 1 ∧
    (orderLineItems subtotalDb 1 = [] → subtotalRow.subtotal = none) ∧
    (¬ orderLineItems subtotalDb 1 = [] →
      subtotalRow.subtotal = some (((orderLineItems subtotalDb 1).map
        (fun d => d.unitprice * d.quantity * (1 - d.discount))).sum)) :=
  getOrder_subtotal subtotalDb 1 subtotalRow (by
    show getOrder subtotalDb 1 = some subtotalRow
    simp [getOrder, subtotalDb, subtotalRow, orderSubtotal, orderLineItems,
      List.filter, List.find?]
    norm_num)

/-- C10: `getOrder` selects `customerid` / `employeeid` from the joined
`Customer` / `Employee` rows, so when the stored foreign key matches no
row of the joined table the returned field is `NULL`, not the stored
value. -/
theorem getOrder_joined_ids (db : DB) (id : Nat) (o : OrderRow)
    (h : db.customerOrders.find? (fun o => o.id = id) = some o) :
    ∃ row, getOrder db id = some row ∧
      ((∀ c ∈ db.customers, ¬ o.customerid = some c.id) →
        row.customerid = none) ∧
      ((∀ e ∈ db.employees, ¬ o.employeeid = some e.id) →
        row.employeeid = none) ∧
      (∀ c, db.customers.find? (fun c => o.customerid = some c.id) = some c →
        row.customerid = some c.id) ∧
      (∀ e, db.employees.find? (fun e => o.employeeid = some e.id) = some e →
        row.employeeid = some e.id) := by
  refine ⟨_, by unfold getOrder; rw [h]; rfl, ?_, ?_, ?_, ?_⟩
  · intro hc
    have : db.customers.find? (fun c => o.customerid = some c.id) = none := by
      rw [List.find?_eq_none]
      intro c hcm
      simpa using hc c hcm
    simp [this]
  · intro he
    have : db.employees.find? (fun e => o.employeeid = some e.id) = none := by
      rw [List.find?_eq_none]
      intro e hem
      simpa using he e hem
    simp [this]
  · intro c hc
    simp [hc]
  · intro e he
    simp [he]

/-- Witness database for C10: one order with dangling foreign keys. -/
def danglingDb : DB :=
  ⟨[⟨4, some "GHOST", some 9, none, none, none⟩], [], [], [], []⟩

/-- Witness for C10: the order's stored `customerid = "GHOST"` and
`employeeid = 9` match no joined row, so the fetched fields are `NULL`. -/
theorem getOrder_joined_ids_witness :
    ∃ row, getOrder danglingDb 4 = some row ∧
      ((∀ c ∈ danglingDb.customers,
          ¬ (some "GHOST" : Option String) = some c.id) →
        row.customerid = none) ∧
      ((∀ e ∈ danglingDb.employees, ¬ (some 9 : Option Nat) = some e.id) →
        row.employeeid = none) ∧
      (∀ c, danglingDb.customers.find?
          (fun c => (some "GHOST" : Option String) = some c.id) = some c →
        row.customerid = some c.id) ∧
      (∀ e, danglingDb.employees.find?
          (fun e => (some 9 : Option Nat) = some e.id) = some e →
        row.employeeid = some e.id) :=
  getOrder_joined_ids danglingDb 4
    ⟨4, some "GHOST", some 9, none, none, none⟩ (by rfl)

/-- Membership in a `LEFT JOIN` padding: either the match list is empty
and the row is `none`, or the row wraps a match. -/
theorem mem_leftJoin {α : Type} (l : List α) (x : Option α) :
    x ∈ leftJoin l ↔ (l = [] ∧ x = none) ∨ ∃ y ∈ l, x = some y := by
  cases l with
  | nil => simp [leftJoin]
  | cons a t =>
    simp only [leftJoin, List.mem_map, List.mem_cons]
    constructor
    · rintro ⟨y, hy, rfl⟩
      exact Or.inr ⟨y, hy, rfl⟩
    · rintro (⟨h, _⟩ | ⟨y, hy, rfl⟩)
      · exact absurd h (by simp)
      · exact ⟨y, hy, rfl⟩

/-- A filter on the preimage of a duplicate-free key column keeps at most
one row. -/
theorem length_filter_le_one_of_nodup {α β : Type} [DecidableEq β]
    (f : α → β) (b : β) (l : List α) (hnd : (l.map f).Nodup) :
    (l.filter (fun a => f a = b)).length ≤ 1 := by
  induction l with
  | nil => simp
  | cons a t ih =>
    rw [List.map_cons, List.nodup_cons] at hnd
    by_cases h : f a = b
    · have ht : t.filter (fun a => f a = b) = [] := by
        rw [List.filter_eq_nil_iff]
        intro x hx
        simp only [decide_eq_true_eq]
        intro hfx
        have hax : f a = f x := by rw [h, hfx]
        exact hnd.1 (by rw [hax]; exact List.mem_map_of_mem f hx)
      simp [List.filter_cons, h, ht]
    · simp only [List.filter_cons, h]
      simpa using ih hnd.2

/-- Mapping a constant over a `LEFT JOIN` padding of at most one match
gives a single copy. -/
theorem leftJoin_map_const {α β : Type} (l : List α) (h : l.length ≤ 1)
    (c : β) : (leftJoin l).map (fun _ => c) = [c] := by
  match l with
  | [] => rfl
  | [a] => rfl
  | a :: b :: t => simp at h

/-- Flat-mapping with singleton results is a map. -/
theorem flatMap_singleton_map {α β : Type} (f : α → β) (l : List α) :
    (l.flatMap (fun a => [f a])) = l.map f := by
  induction l with
  | nil => rfl
  | cons a t ih => simp [List.flatMap_cons, ih]

/-- C6: every row `getOrderDetails` returns comes from a line item of the
requested order, carrying `price = unitprice * quantity` and the
`Product`-joined display name; and (for a well-keyed `Product` table) the
rows are the order's line items in table (insertion) order. -/
theorem getOrderDetails_spec (db : DB) (id : Nat) :
    (∀ row ∈ getOrderDetails db id, ∃ d ∈ db.orderDetails,
      d.orderid = id ∧ row.id = d.id ∧
      row.price = d.unitprice * d.quantity ∧
      row.unitprice = d.unitprice ∧ row.quantity = d.quantity ∧
      row.discount = d.discount ∧
      ((row.productname = none ∧ ∀ p ∈ db.products, ¬ p.id = d.productid) ∨
       (∃ p ∈ db.products, p.id = d.productid ∧
         row.productname = some p.productname))) ∧
    ((db.products.map (fun p => p.id)).Nodup →
      (getOrderDetails db id).map (fun r => r.id) =
        (orderLineItems db id).map (fun d => d.id)) := by
  constructor
  · intro row hrow
    simp only [getOrderDetails, List.mem_flatMap, List.mem_map] at hrow
    obtain ⟨d, hd, p?, hp?, hmk⟩ := hrow
    have hdmem := List.mem_filter.mp hd
    refine ⟨d, hdmem.1, by simpa using hdmem.2, ?_, ?_, ?_, ?_, ?_, ?_⟩
    · rw [← hmk]
    · rw [← hmk]
    · rw [← hmk]
    · rw [← hmk]
    · rw [← hmk]
    · rw [mem_leftJoin] at hp?
      rcases hp? with ⟨hnil, rfl⟩ | ⟨p, hp, rfl⟩
      · refine Or.inl ⟨by rw [← hmk]; rfl, ?_⟩
        intro p hp
        have := List.filter_eq_nil_iff.mp hnil p hp
        simpa using this
      · have hpm := List.mem_filter.mp hp
        exact Or.inr ⟨p, hpm.1, by simpa using hpm.2, by rw [← hmk]; rfl⟩
  · intro hnd
    simp only [getOrderDetails, List.map_flatMap, List.map_map]
    have hF : ∀ d : OrderDetailRow,
        ((leftJoin (db.products.filter (fun p => p.id = d.productid))).map
          ((fun r : FetchedDetail => r.id) ∘ (fun p? =>
            ({ id := d.id, price := d.unitprice * d.quantity,
               productname := p?.map (fun p => p.productname),
               unitprice := d.unitprice, quantity := d.quantity,
               discount := d.discount } : FetchedDetail)))) = [d.id] := by
      intro d
      exact leftJoin_map_const _
        (length_filter_le_one_of_nodup (fun p => p.id) d.productid
          db.products hnd) d.id
    calc (orderLineItems db id).flatMap (fun d =>
            (leftJoin (db.products.filter (fun p => p.id = d.productid))).map
              ((fun r : FetchedDetail => r.id) ∘ (fun p? =>
                ({ id := d.id, price := d.unitprice * d.quantity,
                   productname := p?.map (fun p => p.productname),
                   unitprice := d.unitprice, quantity := d.quantity,
                   discount := d.discount } : FetchedDetail))))
        = (orderLineItems db id).flatMap (fun d => [d.id]) := by
          exact congrArg _ (funext hF)
      _ = (orderLineItems db id).map (fun d => d.id) :=
          flatMap_singleton_map _ _

/-- Witness database for C6: one product, one line item of order 5. -/
def detailsDb : DB :=
  ⟨[], [⟨"5/1", 5, 1, 3, 2, 0⟩], [], [], [⟨1, "Chai"⟩]⟩

/-- Witness for C6: the fetched ids are the line-item ids in table order. -/
theorem getOrderDetails_spec_witness :
    (orderLineItems detailsDb 5).map (fun d => d.id) = ["5/1"] ∧
    (getOrderDetails detailsDb 5).map (fun r => r.id) =
      (orderLineItems detailsDb 5).map (fun d => d.id) :=
  ⟨rfl, (getOrderDetails_spec detailsDb 5).2 (by decide)⟩

/-- C9: the customer filter is applied only for a truthy customer id —
with `undefined` or the empty string the `WHERE` clause is omitted, so
`getCustomerOrders` on an empty-string id yields the unfiltered listing;
with a non-empty id every returned row belongs to that customer. -/
theorem customer_filter_truthiness :
    (∀ (db : DB) (opts : PartialOptions),
      getCustomerOrders db "" opts =
        getAllOrders db (mergeCustomerDefaults opts).toPartial none) ∧
    (∀ (db : DB) (opts : PartialOptions),
      getAllOrders db opts (some "") = getAllOrders db opts none) ∧
    (∀ (db : DB) (opts : PartialOptions) (cid : String), ¬ cid = "" →
      ∀ row ∈ getAllOrders db opts (some cid), row.customerid = some cid) := by
  have hfilter : ∀ (db : DB) (opts : PartialOptions),
      getAllOrders db opts (some "") = getAllOrders db opts none := by
    intro db opts
    simp [getAllOrders, sortedRows, listingRows, applyCustomerFilter]
  refine ⟨fun db opts => hfilter db _, hfilter, ?_⟩
  intro db opts cid hcid row hrow
  simp only [getAllOrders] at hrow
  have h1 : row ∈ sortedRows db opts (some cid) :=
    List.drop_subset _ _ (List.take_subset _ _ hrow)
  rw [sortedRows, mem_insertionSort] at h1
  simp only [listingRows, List.mem_flatMap, List.mem_map] at h1
  obtain ⟨o, ho, c?, _, e?, _, hmk⟩ := h1
  have hof : o ∈ db.customerOrders.filter (fun o => o.customerid = some cid) := by
    simpa [applyCustomerFilter, hcid] using ho
  have hoc : o.customerid = some cid := by
    simpa using (List.mem_filter.mp hof).2
  rw [← hmk]
  exact hoc

/-- Witness database for C9: two orders of different customers. -/
def filterDb : DB :=
  ⟨[⟨1, some "ALFKI", none, none, none, none⟩,
    ⟨2, some "BERGS", none, none, none, none⟩], [], [], [], []⟩

/-- Witness for C9: the empty-string id returns both orders (unfiltered),
while a truthy id filters the rows to that customer. -/
theorem customer_filter_truthiness_witness :
    getCustomerOrders filterDb "" {} =
      getAllOrders filterDb (mergeCustomerDefaults {}).toPartial none ∧
    ((getCustomerOrders filterDb "" {}).map (fun r => r.id) = [1, 2] ∧
      (getAllOrders filterDb {} (some "ALFKI")).map (fun r => r.id) = [1]) :=
  ⟨customer_filter_truthiness.1 filterDb {}, by decide⟩

/-- Changing only the page leaves the sorted row source unchanged. -/
theorem sortedRows_set_page (db : DB) (opts : PartialOptions)
    (cid : Option String) (p' : Nat) :
    sortedRows db { opts with page := some p' } cid =
      sortedRows db opts cid := by
  simp [sortedRows, mergeDefaults]

/-- C4: with `page = p ≥ 1` and `perPage > 0` the listing query windows
the sorted rows with `LIMIT perPage OFFSET (page-1)*perPage`: it returns
at most `perPage` rows, and the windows of page `p` and page `p+1` are
contiguous and (for duplicate-free row sources) disjoint. -/
theorem getAllOrders_pagination (db : DB) (opts : PartialOptions)
    (cid : Option String) (p pp : Nat)
    (hpage : opts.page = some p) (hper : opts.perPage = some pp)
    (hp : 1 ≤ p) (hpp : 0 < pp) :
    (getAllOrders db opts cid).length ≤ pp ∧
    getAllOrders db opts cid ++
        getAllOrders db { opts with page := some (p + 1) } cid =
      ((sortedRows db opts cid).drop ((p - 1) * pp)).take (pp + pp) ∧
    ((sortedRows db opts cid).Nodup →
      (getAllOrders db opts cid).Disjoint
        (getAllOrders db { opts with page := some (p + 1) } cid)) := by
  obtain ⟨q, rfl⟩ : ∃ q, p = q + 1 := ⟨p - 1, by omega⟩
  have hga : ∀ (o : PartialOptions) (pg : Nat), o.page = some pg →
      o.perPage = some pp → o.order = opts.order → o.sort = opts.sort →
      getAllOrders db o cid =
        ((sortedRows db opts cid).drop ((pg - 1) * pp)).take pp := by
    intro o pg h1 h2 h3 h4
    have hs : sortedRows db o cid = sortedRows db opts cid := by
      simp [sortedRows, mergeDefaults, h3, h4]
    simp [getAllOrders, mergeDefaults, h1, h2, hs]
  have hw1 := hga opts (q + 1) hpage hper rfl rfl
  have hw2 := hga { opts with page := some (q + 1 + 1) } (q + 1 + 1) rfl
    hper rfl rfl
  rw [show q + 1 - 1 = q from rfl] at hw1
  rw [show (q + 1 + 1 - 1) * pp = q * pp + pp from by
    rw [show q + 1 + 1 - 1 = q + 1 from rfl, Nat.succ_mul]] at hw2
  rw [← List.drop_drop] at hw2
  refine ⟨?_, ?_, ?_⟩
  · rw [hw1]
    exact List.length_take_le _ _
  · rw [hw1, hw2, show q + 1 - 1 = q from rfl]
    exact (List.take_add _ pp pp).symm
  · intro hnd
    rw [hw1, hw2]
    have hnd1 : ((sortedRows db opts cid).drop (q * pp)).Nodup :=
      hnd.sublist (List.drop_sublist _ _)
    have hsplit :=
      List.take_append_drop pp ((sortedRows db opts cid).drop (q * pp))
    rw [← hsplit] at hnd1
    rw [List.nodup_append] at hnd1
    intro a ha1 ha2
    exact hnd1.2.2 ha1 (List.take_subset _ _ ha2)

/-- Witness database for C4: three orders. -/
def pageDb : DB :=
  ⟨[⟨1, none, none, none, none, none⟩, ⟨2, none, none, none, none, none⟩,
    ⟨3, none, none, none, none, none⟩], [], [], [], []⟩

/-- Witness options for C4: page 1, two rows per page. -/
def pageOpts : PartialOptions := ⟨none, some 1, some 2, none⟩

/-- Witness for C4 at page 1 / perPage 2 over three orders. -/
theorem getAllOrders_pagination_witness :
    (getAllOrders pageDb pageOpts none).length ≤ 2 ∧
    getAllOrders pageDb pageOpts none ++
        getAllOrders pageDb { pageOpts with page := some (1 + 1) } none =
      ((sortedRows pageDb pageOpts none).drop ((1 - 1) * 2)).take (2 + 2) ∧
    (getAllOrders pageDb pageOpts none).Disjoint
      (getAllOrders pageDb { pageOpts with page := some (1 + 1) } none) := by
  have h := getAllOrders_pagination pageDb pageOpts none 1 2 rfl rfl
    (by decide) (by decide)
  exact ⟨h.1, h.2.1, h.2.2 (by decide)⟩

/-- Membership in the deduplication worker: the keys not already seen. -/
theorem mem_firstKeysAux (k : Option Nat) :
    ∀ (l seen : List (Option Nat)),
      k ∈ firstKeysAux seen l ↔ k ∈ l ∧ ¬ k ∈ seen := by
  intro l
  induction l with
  | nil => intro seen; simp [firstKeysAux]
  | cons a t ih =>
    intro seen
    by_cases ha : a ∈ seen
    · rw [firstKeysAux, if_pos ha, ih]
      constructor
      · rintro ⟨h1, h2⟩
        exact ⟨List.mem_cons_of_mem a h1, h2⟩
      · rintro ⟨h1, h2⟩
        rcases List.mem_cons.mp h1 with rfl | h1
        · exact absurd ha h2
        · exact ⟨h1, h2⟩
    · rw [firstKeysAux, if_neg ha]
      rw [List.mem_cons, ih]
      constructor
      · rintro (rfl | ⟨h1, h2⟩)
        · exact ⟨by simp, ha⟩
        · exact ⟨List.mem_cons_of_mem a h1, fun hk => h2 (List.mem_cons_of_mem a hk)⟩
      · rintro ⟨h1, h2⟩
        rcases List.mem_cons.mp h1 with rfl | h1
        · exact Or.inl rfl
        · by_cases hk : k = a
          · exact Or.inl hk
          · exact Or.inr ⟨h1, by
              intro hmem
              rcases List.mem_cons.mp hmem with h | h
              · exact hk h
              · exact h2 h⟩

/-- The group keys of a `GROUP BY` are exactly the key values occurring
in the joined rows. -/
theorem mem_firstKeys (l : List (Option Nat)) (k : Option Nat) :
    k ∈ firstKeys l ↔ k ∈ l := by
  rw [firstKeys, mem_firstKeysAux]
  simp

/-- Membership in the employee/order inner join. -/
theorem mem_employeeJoin (db : DB) (e : Employee) (o : OrderRow) :
    (e, o) ∈ employeeJoin db ↔
      e ∈ db.employees ∧ o ∈ db.customerOrders ∧
        o.employeeid = some e.id := by
  simp only [employeeJoin, List.mem_flatMap, List.mem_map]
  constructor
  · rintro ⟨e', he', o', ho', heq⟩
    have h1 : e' = e := congrArg Prod.fst heq
    have h2 : o' = o := congrArg Prod.snd heq
    subst h1; subst h2
    have := List.mem_filter.mp ho'
    exact ⟨he', this.1, by simpa using this.2⟩
  · rintro ⟨he, ho, hid⟩
    exact ⟨e, he, o, List.mem_filter.mpr ⟨ho, by simpa using hid⟩, rfl⟩

/-- Filtering the inner join on the group key `some e.id` of a listed
employee of a well-keyed `Employee` table yields exactly `e`'s join rows. -/
theorem employeeJoin_filter_key (es : List Employee) (orders : List OrderRow)
    (hnd : (es.map (fun e => e.id)).Nodup) (e : Employee) (he : e ∈ es) :
    ((es.flatMap (fun e' =>
        (orders.filter (fun o => o.employeeid = some e'.id)).map
          (fun o => (e', o)))).filter
      (fun r => r.2.employeeid = some e.id)) =
    (orders.filter (fun o => o.employeeid = some e.id)).map
      (fun o => (e, o)) := by
  induction es with
  | nil => cases he
  | cons a t ih =>
    rw [List.map_cons, List.nodup_cons] at hnd
    rw [List.flatMap_cons, List.filter_append]
    rcases List.mem_cons.mp he with rfl | het
    · have hhead : ((orders.filter
          (fun o => o.employeeid = some e.id)).map
            (fun o => (e, o))).filter
          (fun r => r.2.employeeid = some e.id) =
          (orders.filter (fun o => o.employeeid = some e.id)).map
            (fun o => (e, o)) := by
        rw [List.filter_eq_self]
        intro r hr
        obtain ⟨o, ho, rfl⟩ := List.mem_map.mp hr
        have := List.mem_filter.mp ho
        simpa using this.2
      have htail : (t.flatMap (fun e' =>
          (orders.filter (fun o => o.employeeid = some e'.id)).map
            (fun o => (e', o)))).filter
          (fun r => r.2.employeeid = some e.id) = [] := by
        rw [List.filter_eq_nil_iff]
        intro r hr
        obtain ⟨e', he', hr'⟩ := List.mem_flatMap.mp hr
        obtain ⟨o, ho, rfl⟩ := List.mem_map.mp hr'
        have hoid := List.mem_filter.mp ho
        simp only [decide_eq_true_eq]
        intro hkey
        have : e'.id = e.id := by
          have h1 : o.employeeid = some e'.id := by simpa using hoid.2
          rw [h1] at hkey
          exact Option.some.inj hkey
        exact hnd.1 (by rw [← this]; exact List.mem_map_of_mem _ he')
      rw [hhead, htail, List.append_nil]
    · have hhead : ((orders.filter
          (fun o => o.employeeid = some a.id)).map
            (fun o => (a, o))).filter
          (fun r => r.2.employeeid = some e.id) = [] := by
        rw [List.filter_eq_nil_iff]
        intro r hr
        obtain ⟨o, ho, rfl⟩ := List.mem_map.mp hr
        have hoid := List.mem_filter.mp ho
        simp only [decide_eq_true_eq]
        intro hkey
        have haid : a.id = e.id := by
          have h1 : o.employeeid = some a.id := by simpa using hoid.2
          rw [h1] at hkey
          exact Option.some.inj hkey
        exact hnd.1 (by rw [haid]; exact List.mem_map_of_mem _ het)
      rw [hhead, ih hnd.2 het, List.nil_append]

/-- C8: `getAllEmployees` returns exactly the employees having at least
one order (inner join + group by), each with `ordercount` equal to the
number of that employee's orders; an employee with zero orders never
appears. -/
theorem getAllEmployees_spec (db : DB)
    (hnd : (db.employees.map (fun e => e.id)).Nodup) :
    (∀ e ∈ db.employees,
      db.customerOrders.filter (fun o => o.employeeid = some e.id) = [] →
      ∀ row ∈ getAllEmployees db, ¬ row.id = e.id) ∧
    (∀ e ∈ db.employees,
      ¬ db.customerOrders.filter (fun o => o.employeeid = some e.id) = [] →
      ∃ row ∈ getAllEmployees db, row.id = e.id ∧
        row.ordercount = (db.customerOrders.filter
          (fun o => o.employeeid = some e.id)).length) ∧
    (∀ row ∈ getAllEmployees db, ∃ e ∈ db.employees, row.id = e.id ∧
      row.ordercount = (db.customerOrders.filter
        (fun o => o.employeeid = some e.id)).length ∧
      0 < row.ordercount) := by
  have hsound : ∀ row ∈ getAllEmployees db, ∃ e ∈ db.employees,
      row.id = e.id ∧
      row.ordercount = (db.customerOrders.filter
        (fun o => o.employeeid = some e.id)).length ∧
      0 < row.ordercount := by
    intro row hrow
    simp only [getAllEmployees, List.mem_filterMap] at hrow
    obtain ⟨k, _, hg⟩ := hrow
    cases hgrp : (employeeJoin db).filter
        (fun r => r.2.employeeid = k) with
    | nil => rw [hgrp] at hg; exact absurd hg (by simp [groupRow])
    | cons r rs =>
      rw [hgrp] at hg
      have hroweq := Option.some.inj hg
      have hrmem := List.mem_filter.mp
        (hgrp ▸ (List.mem_cons_self r rs))
      have hjoin := (mem_employeeJoin db r.1 r.2).mp hrmem.1
      have hkey : k = some r.1.id := by
        have h1 : r.2.employeeid = k := by simpa using hrmem.2
        rw [← h1, hjoin.2.2]
      refine ⟨r.1, hjoin.1, by rw [← hroweq], ?_, ?_⟩
      · have hfk := employeeJoin_filter_key db.employees db.customerOrders
          hnd r.1 hjoin.1
        rw [← employeeJoin] at hfk
        rw [hkey] at hgrp
        rw [hgrp] at hfk
        have hlen := congrArg List.length hfk
        rw [List.length_map] at hlen
        rw [← hroweq]
        simpa [groupRow] using hlen
      · rw [← hroweq]
        simp [groupRow]
  refine ⟨?_, ?_, hsound⟩
  · intro e he hempty row hrow hid
    obtain ⟨e', he', hid', hcount, hpos⟩ := hsound row hrow
    have heid : e'.id = e.id := by rw [← hid', hid]
    rw [heid] at hcount
    rw [hempty] at hcount
    simp [hcount] at hpos
  · intro e he hne
    obtain ⟨o, ho⟩ := List.exists_mem_of_ne_nil _ hne
    have homem := List.mem_filter.mp ho
    have hjmem : (e, o) ∈ employeeJoin db :=
      (mem_employeeJoin db e o).mpr ⟨he, homem.1, by simpa using homem.2⟩
    have hkmem : some e.id ∈
        (employeeJoin db).map (fun r => r.2.employeeid) := by
      refine List.mem_map.mpr ⟨(e, o), hjmem, ?_⟩
      simpa using homem.2
    have hfk := employeeJoin_filter_key db.employees db.customerOrders
      hnd e he
    rw [← employeeJoin] at hfk
    cases hfil : db.customerOrders.filter
        (fun o => o.employeeid = some e.id) with
    | nil => exact absurd hfil hne
    | cons o₀ os =>
      rw [hfil, List.map_cons] at hfk
      refine ⟨⟨e.id, e.firstname, e.lastname, e.region, e.hiredate, e.title,
        e.reportsto, ((e, o₀) :: os.map (fun o => (e, o))).length⟩,
        ?_, rfl, ?_⟩
      · simp only [getAllEmployees, List.mem_filterMap]
        refine ⟨some e.id, (mem_firstKeys _ _).mpr hkmem, ?_⟩
        rw [hfk]
        rfl
      · simp [hfil]

/-- Witness employees for C8. -/
def emp1 : Employee := ⟨1, "Nancy", "Davolio", none, none, none, none⟩

/-- Second witness employee for C8 (no orders). -/
def emp2 : Employee := ⟨2, "Andrew", "Fuller", none, none, none, none⟩

/-- Witness database for C8: two employees, two orders both of `emp1`. -/
def empDb : DB :=
  ⟨[⟨10, none, some 1, none, none, none⟩,
    ⟨11, none, some 1, none, none, none⟩], [], [], [emp1, emp2], []⟩

/-- The row `getAllEmployees` produces for `emp1` over `empDb`. -/
def nancyRow : ListedEmployee :=
  ⟨1, "Nancy", "Davolio", none, none, none, none, 2⟩

/-- Witness for C8: `emp1` (two orders) appears with `ordercount = 2`;
the produced row is not `emp2`'s (zero orders). -/
theorem getAllEmployees_spec_witness :
    ¬ nancyRow.id = emp2.id ∧
    (∃ row ∈ getAllEmployees empDb, row.id = emp1.id ∧
      row.ordercount = (empDb.customerOrders.filter
        (fun o => o.employeeid = some emp1.id)).length) := by
  have h := getAllEmployees_spec empDb (by decide)
  exact ⟨h.1 emp2 (by decide) (by decide) nancyRow (by decide),
    h.2.1 emp1 (by decide) (by decide)⟩

/-- The catch block leaves the trace as the dispatched statements plus a
single trailing `ROLLBACK`, whether or not the rollback itself succeeds. -/
theorem rollbackAnd_trace {α : Type} (drv : Driver) (e : OrderError)
    (trace : List Stmt) :
    (rollbackAnd (α := α) drv e trace).2 = trace ++ [.rollback] := by
  rw [rollbackAnd]
  cases drv .rollback <;> rfl

/-- When the rollback statement succeeds, the catch block rethrows the
caught error unchanged. -/
theorem rollbackAnd_err {α : Type} (drv : Driver) (e : OrderError)
    (trace : List Stmt) (v : Option RunResult)
    (hr : drv .rollback = .ok v) :
    rollbackAnd (α := α) drv e trace = (.error e, trace ++ [.rollback]) := by
  rw [rollbackAnd, hr]

/-- Every statement generated for a create-order detail entry is a detail
insert. -/
theorem mem_detailStmts (oid : Nat) (details : List DetailData) (s : Stmt)
    (hs : s ∈ detailStmts oid details) : s.isInsertDetail = true := by
  obtain ⟨p, _, rfl⟩ := List.mem_map.mp hs
  rfl

/-- Every statement generated for an update-order detail entry is a
detail update. -/
theorem mem_detailUpdateStmts (details : List DetailUpdateData) (s : Stmt)
    (hs : s ∈ detailUpdateStmts details) :
    ∃ d : DetailUpdateData, s = Stmt.updateDetail d.productid d.unitprice
      d.quantity d.discount d.id := by
  obtain ⟨d, _, rfl⟩ := List.mem_map.mp hs
  exact ⟨d, rfl⟩

/-- `ROLLBACK` is never among the generated detail inserts. -/
theorem rollback_not_mem_detailStmts (oid : Nat)
    (details : List DetailData) : ¬ Stmt.rollback ∈ detailStmts oid details := by
  intro h
  exact absurd (mem_detailStmts oid details _ h) (by simp [Stmt.isInsertDetail])

/-- `ROLLBACK` is never among the generated detail updates. -/
theorem rollback_not_mem_detailUpdateStmts (details : List DetailUpdateData) :
    ¬ Stmt.rollback ∈ detailUpdateStmts details := by
  intro h
  obtain ⟨d, hd⟩ := mem_detailUpdateStmts details _ h
  exact absurd hd (by simp)

/-- The synthesized detail-insert ids are `"<orderid>/1" .. "<orderid>/N"`
in input order. -/
theorem filterMap_detailStmts (oid : Nat) (details : List DetailData) :
    (detailStmts oid details).filterMap stmtDetailId =
      (List.range details.length).map
        (fun k => toString oid ++ "/" ++ toString (k + 1)) := by
  rw [detailStmts, List.filterMap_map]
  have hcomp : (stmtDetailId ∘ (fun p : Nat × DetailData =>
      Stmt.insertDetail (toString oid ++ "/" ++ toString (p.1 + 1)) oid
        p.2.productid p.2.unitprice p.2.quantity p.2.discount)) =
      (some ∘ (fun p : Nat × DetailData =>
        toString oid ++ "/" ++ toString (p.1 + 1))) := rfl
  rw [hcomp, List.filterMap_eq_map]
  have hfst : (fun p : Nat × DetailData =>
      toString oid ++ "/" ++ toString (p.1 + 1)) =
      ((fun k => toString oid ++ "/" ++ toString (k + 1)) ∘ Prod.fst) := rfl
  rw [hfst, ← List.map_map, List.enum_map_fst]

/-- The generated detail inserts survive a detail filter unchanged. -/
theorem filter_detailStmts (oid : Nat) (details : List DetailData) :
    (detailStmts oid details).filter Stmt.isInsertDetail =
      detailStmts oid details :=
  List.filter_eq_self.mpr (fun s hs => mem_detailStmts oid details s hs)

/-- C2: once the header insert has produced a generated id, `createOrder`
dispatches exactly one insert per detail entry, in input order, with the
synthesized ids `"<orderid>/1" .. "<orderid>/N"` (each id is part of the
dispatched statement, hence assigned before dispatch). -/
theorem createOrder_detail_ids (drv : Driver) (order : OrderData)
    (details : List DetailData) (r : RunResult)
    (hb : ∃ v, drv .begin = .ok v)
    (hh : drv (.insertOrder order) = .ok (some r))
    (hid : ¬ r.lastID = 0) :
    (createOrder drv order details).2.filter Stmt.isInsertDetail =
      detailStmts r.lastID details ∧
    (createOrder drv order details).2.filterMap stmtDetailId =
      (List.range details.length).map
        (fun k => toString r.lastID ++ "/" ++ toString (k + 1)) := by
  obtain ⟨vb, hvb⟩ := hb
  have htrace : (createOrder drv order details).2 =
        .begin :: .insertOrder order :: detailStmts r.lastID details ∨
      (createOrder drv order details).2 =
        (.begin :: .insertOrder order :: detailStmts r.lastID details) ++
          [.commit] ∨
      (createOrder drv order details).2 =
        (.begin :: .insertOrder order :: detailStmts r.lastID details) ++
          [.rollback] ∨
      (createOrder drv order details).2 =
        ((.begin :: .insertOrder order :: detailStmts r.lastID details) ++
          [.commit]) ++ [.rollback] := by
    rw [createOrder, hvb, hh]
    dsimp only
    rw [if_neg hid]
    cases hfe : firstError drv (detailStmts r.lastID details) with
    | some e =>
      refine Or.inr (Or.inr (Or.inl ?_))
      rw [rollbackAnd_trace]
    | none =>
      cases hcm : drv .commit with
      | error e =>
        refine Or.inr (Or.inr (Or.inr ?_))
        rw [rollbackAnd_trace]
      | ok v => exact Or.inr (Or.inl rfl)
  rcases htrace with h | h | h | h <;> rw [h] <;>
    refine ⟨?_, ?_⟩ <;>
    simp [List.filter_append, List.filterMap_append, Stmt.isInsertDetail,
      stmtDetailId, filter_detailStmts, filterMap_detailStmts]

/-- C5: when the header insert resolves without a usable generated id
(`undefined` result or falsy `lastID`), `createOrder` fails with the
insertion error and no detail insert is ever dispatched. -/
theorem createOrder_insertionError (drv : Driver) (order : OrderData)
    (details : List DetailData)
    (hb : ∃ v, drv .begin = .ok v) (hr : ∃ v, drv .rollback = .ok v)
    (hbad : drv (.insertOrder order) = .ok none ∨
      ∃ r, drv (.insertOrder order) = .ok (some r) ∧ r.lastID = 0) :
    (createOrder drv order details).1 = .error .insertionError ∧
    (createOrder drv order details).2.filter Stmt.isInsertDetail = [] := by
  obtain ⟨vb, hvb⟩ := hb
  obtain ⟨vr, hvr⟩ := hr
  have hres : createOrder drv order details =
      (.error .insertionError,
        [.begin, .insertOrder order] ++ [.rollback]) := by
    rcases hbad with hh | ⟨r, hh, hz⟩
    · rw [createOrder, hvb, hh]
      dsimp only
      rw [rollbackAnd_err drv _ _ vr hvr]
    · rw [createOrder, hvb, hh]
      dsimp only
      rw [if_pos hz, rollbackAnd_err drv _ _ vr hvr]
  rw [hres]
  exact ⟨rfl, rfl⟩

/-- Witness driver for C5: the header insert resolves to `undefined`,
everything else succeeds. -/
def noIdDriver : Driver := fun s =>
  match s with
  | .insertOrder _ => .ok none
  | _ => .ok (some ⟨1⟩)

/-- All-null order header data for the trace witnesses. -/
def blankOrder : OrderData :=
  ⟨none, none, none, none, none, none, none, none, none, none, none⟩

/-- A concrete detail entry for the trace witnesses. -/
def blankDetail : DetailData := ⟨1, 4, 2, 0⟩

/-- Witness for C5: with the `undefined` header result the outcome is the
insertion error and the trace contains no detail insert. -/
theorem createOrder_insertionError_witness :
    (createOrder noIdDriver blankOrder [blankDetail]).1 =
      .error .insertionError ∧
    (createOrder noIdDriver blankOrder
      [blankDetail]).2.filter Stmt.isInsertDetail = [] :=
  createOrder_insertionError noIdDriver blankOrder [blankDetail]
    ⟨some ⟨1⟩, rfl⟩ ⟨some ⟨1⟩, rfl⟩ (Or.inl rfl)

/-- Witness driver for C2: every statement succeeds and the header insert
reports the generated id `7`. -/
def okDriver : Driver := fun _ => .ok (some ⟨7⟩)

/-- Witness for C2: with generated id `7` and two detail entries, the
dispatched detail inserts carry the ids `"7/1"` and `"7/2"` in order. -/
theorem createOrder_detail_ids_witness :
    (createOrder okDriver blankOrder
        [blankDetail, blankDetail]).2.filter Stmt.isInsertDetail =
      detailStmts 7 [blankDetail, blankDetail] ∧
    (createOrder okDriver blankOrder
        [blankDetail, blankDetail]).2.filterMap stmtDetailId =
      (List.range (2 : Nat)).map
        (fun k => toString (7 : Nat) ++ "/" ++ toString (k + 1)) :=
  createOrder_detail_ids okDriver blankOrder [blankDetail, blankDetail]
    ⟨7⟩ ⟨some ⟨7⟩, rfl⟩ rfl (by decide)

/-- A trace that ends in its only `ROLLBACK` has rollback count one and
`ROLLBACK` as its final statement. -/
theorem trace_shape (base : List Stmt) (hnb : ¬ Stmt.rollback ∈ base) :
    (base ++ [Stmt.rollback]).count Stmt.rollback = 1 ∧
    (base ++ [Stmt.rollback]).getLast? = some Stmt.rollback := by
  constructor
  · rw [List.count_append, List.count_eq_zero.mpr hnb]
    simp [List.count_singleton]
  · simp [List.getLast?_append]

/-- A statement on which the driver reported the settled first error did
reject with that error. -/
theorem firstError_drv (drv : Driver) (stmts : List Stmt) (e : OrderError)
    (hfe : firstError drv stmts = some e) :
    ∃ s ∈ stmts, drv s = .error e := by
  obtain ⟨s, hs, hds⟩ := List.exists_of_findSome?_eq_some hfe
  refine ⟨s, hs, ?_⟩
  cases hdd : drv s with
  | error e2 =>
    rw [hdd] at hds
    simpa using hds
  | ok v =>
    rw [hdd] at hds
    simp at hds

/-- C1: under a working `BEGIN`/`ROLLBACK`, every failure `createOrder` or
`updateOrder` surfaces after the transaction began (header statement,
missing generated id, any detail statement, commit) leaves a trace with
exactly one `ROLLBACK`, dispatched last, and the surfaced error is the
original one: the insertion-error guard's, or verbatim the error of a
dispatched non-rollback statement. -/
theorem transactional_rollback_rethrow (drv : Driver)
    (hb : ∃ v, drv .begin = .ok v) (hr : ∃ v, drv .rollback = .ok v) :
    (∀ (order : OrderData) (details : List DetailData) (e : OrderError),
      (createOrder drv order details).1 = .error e →
      ((createOrder drv order details).2.count .rollback = 1 ∧
       (createOrder drv order details).2.getLast? = some .rollback ∧
       ((e = .insertionError ∧
          (drv (.insertOrder order) = .ok none ∨
           ∃ r, drv (.insertOrder order) = .ok (some r) ∧ r.lastID = 0)) ∨
        ∃ s ∈ (createOrder drv order details).2, ¬ s = .rollback ∧
          drv s = .error e))) ∧
    (∀ (id : Nat) (data : OrderData) (details : List DetailUpdateData)
        (e : OrderError),
      (updateOrder drv id data details).1 = .error e →
      ((updateOrder drv id data details).2.count .rollback = 1 ∧
       (updateOrder drv id data details).2.getLast? = some .rollback ∧
       ∃ s ∈ (updateOrder drv id data details).2, ¬ s = .rollback ∧
         drv s = .error e)) := by
  obtain ⟨vb, hvb⟩ := hb
  obtain ⟨vr, hvr⟩ := hr
  constructor
  · intro order details e herr
    cases hh : drv (.insertOrder order) with
    | error e1 =>
      have hres : createOrder drv order details =
          (.error e1, [.begin, .insertOrder order] ++ [.rollback]) := by
        rw [createOrder, hvb, hh]
        dsimp only
        rw [rollbackAnd_err drv _ _ vr hvr]
      rw [hres] at herr
      obtain rfl : e1 = e := Except.error.inj herr
      rw [hres]
      refine ⟨(trace_shape _ ?_).1, (trace_shape _ ?_).2,
        Or.inr ⟨.insertOrder order, by simp, by simp, hh⟩⟩ <;> simp
    | ok res =>
      cases res with
      | none =>
        have hres : createOrder drv order details =
            (.error .insertionError,
              [.begin, .insertOrder order] ++ [.rollback]) := by
          rw [createOrder, hvb, hh]
          dsimp only
          rw [rollbackAnd_err drv _ _ vr hvr]
        rw [hres] at herr
        obtain rfl : OrderError.insertionError = e := Except.error.inj herr
        rw [hres]
        refine ⟨(trace_shape _ ?_).1, (trace_shape _ ?_).2,
          Or.inl ⟨rfl, Or.inl rfl⟩⟩ <;> simp
      | some r =>
        by_cases hz : r.lastID = 0
        · have hres : createOrder drv order details =
              (.error .insertionError,
                [.begin, .insertOrder order] ++ [.rollback]) := by
            rw [createOrder, hvb, hh]
            dsimp only
            rw [if_pos hz, rollbackAnd_err drv _ _ vr hvr]
          rw [hres] at herr
          obtain rfl : OrderError.insertionError = e := Except.error.inj herr
          rw [hres]
          refine ⟨(trace_shape _ ?_).1, (trace_shape _ ?_).2,
            Or.inl ⟨rfl, Or.inr ⟨r, rfl, hz⟩⟩⟩ <;> simp
        · cases hfe : firstError drv (detailStmts r.lastID details) with
          | some e1 =>
            have hres : createOrder drv order details =
                (.error e1, (.begin :: .insertOrder order ::
                  detailStmts r.lastID details) ++ [.rollback]) := by
              rw [createOrder, hvb, hh]
              dsimp only
              rw [if_neg hz, hfe]
              dsimp only
              rw [rollbackAnd_err drv _ _ vr hvr]
            obtain ⟨s, hs, hdrv⟩ := firstError_drv drv _ _ hfe
            have hsnr : ¬ s = Stmt.rollback := by
              intro hcontra
              have := mem_detailStmts _ _ s hs
              rw [hcontra] at this
              simp [Stmt.isInsertDetail] at this
            rw [hres] at herr
            obtain rfl : e1 = e := Except.error.inj herr
            rw [hres]
            refine ⟨(trace_shape _ ?_).1, (trace_shape _ ?_).2,
              Or.inr ⟨s, ?_, hsnr, hdrv⟩⟩
            · simp only [List.mem_cons, not_or]
              exact ⟨by simp, by simp, rollback_not_mem_detailStmts _ _⟩
            · simp only [List.mem_cons, not_or]
              exact ⟨by simp, by simp, rollback_not_mem_detailStmts _ _⟩
            · exact List.mem_append_left _
                (List.mem_cons_of_mem _ (List.mem_cons_of_mem _ hs))
          | none =>
            cases hcm : drv .commit with
            | error e1 =>
              have hres : createOrder drv order details =
                  (.error e1, ((.begin :: .insertOrder order ::
                    detailStmts r.lastID details) ++ [.commit]) ++
                      [.rollback]) := by
                rw [createOrder, hvb, hh]
                dsimp only
                rw [if_neg hz, hfe]
                dsimp only
                rw [hcm]
                dsimp only
                rw [rollbackAnd_err drv _ _ vr hvr]
              rw [hres] at herr
              obtain rfl : e1 = e := Except.error.inj herr
              rw [hres]
              have hnb : ¬ Stmt.rollback ∈ ((.begin :: .insertOrder order ::
                  detailStmts r.lastID details) ++ [Stmt.commit]) := by
                simp only [List.mem_append, List.mem_cons, not_or]
                exact ⟨⟨by simp, by simp, rollback_not_mem_detailStmts _ _⟩,
                  by simp⟩
              refine ⟨(trace_shape _ hnb).1, (trace_shape _ hnb).2,
                Or.inr ⟨.commit, ?_, by simp, hcm⟩⟩
              exact List.mem_append_left _
                (List.mem_append_right _ (by simp))
            | ok vc =>
              have hres : createOrder drv order details =
                  (.ok r.lastID, (.begin :: .insertOrder order ::
                    detailStmts r.lastID details) ++ [.commit]) := by
                rw [createOrder, hvb, hh]
                dsimp only
                rw [if_neg hz, hfe]
                dsimp only
                rw [hcm]
              rw [hres] at herr
              simp at herr
  · intro id data details e herr
    cases hh : drv (.updateHeader data id) with
    | error e1 =>
      have hres : updateOrder drv id data details =
          (.error e1, [.begin, .updateHeader data id] ++ [.rollback]) := by
        rw [updateOrder, hvb, hh]
        dsimp only
        rw [rollbackAnd_err drv _ _ vr hvr]
      rw [hres] at herr
      obtain rfl : e1 = e := Except.error.inj herr
      rw [hres]
      refine ⟨(trace_shape _ ?_).1, (trace_shape _ ?_).2,
        ⟨.updateHeader data id, by simp, by simp, hh⟩⟩ <;> simp
    | ok res =>
      cases hfe : firstError drv (detailUpdateStmts details) with
      | some e1 =>
        have hres : updateOrder drv id data details =
            (.error e1, (.begin :: .updateHeader data id ::
              detailUpdateStmts details) ++ [.rollback]) := by
          rw [updateOrder, hvb, hh]
          dsimp only
          rw [hfe]
          dsimp only
          rw [rollbackAnd_err drv _ _ vr hvr]
        obtain ⟨s, hs, hdrv⟩ := firstError_drv drv _ _ hfe
        have hsnr : ¬ s = Stmt.rollback := by
          intro hcontra
          obtain ⟨d, hd⟩ := mem_detailUpdateStmts _ s hs
          rw [hcontra] at hd
          exact absurd hd (by simp)
        rw [hres] at herr
        obtain rfl : e1 = e := Except.error.inj herr
        rw [hres]
        refine ⟨(trace_shape _ ?_).1, (trace_shape _ ?_).2,
          ⟨s, ?_, hsnr, hdrv⟩⟩
        · simp only [List.mem_cons, not_or]
          exact ⟨by simp, by simp, rollback_not_mem_detailUpdateStmts _⟩
        · simp only [List.mem_cons, not_or]
          exact ⟨by simp, by simp, rollback_not_mem_detailUpdateStmts _⟩
        · exact List.mem_append_left _
            (List.mem_cons_of_mem _ (List.mem_cons_of_mem _ hs))
      | none =>
        cases hcm : drv .commit with
        | error e1 =>
          have hres : updateOrder drv id data details =
              (.error e1, ((.begin :: .updateHeader data id ::
                detailUpdateStmts details) ++ [.commit]) ++ [.rollback]) := by
            rw [updateOrder, hvb, hh]
            dsimp only
            rw [hfe]
            dsimp only
            rw [hcm]
            dsimp only
            rw [rollbackAnd_err drv _ _ vr hvr]
          rw [hres] at herr
          obtain rfl : e1 = e := Except.error.inj herr
          rw [hres]
          have hnb : ¬ Stmt.rollback ∈ ((.begin :: .updateHeader data id ::
              detailUpdateStmts details) ++ [Stmt.commit]) := by
            simp only [List.mem_append, List.mem_cons, not_or]
            exact ⟨⟨by simp, by simp, rollback_not_mem_detailUpdateStmts _⟩,
              by simp⟩
          refine ⟨(trace_shape _ hnb).1, (trace_shape _ hnb).2,
            ⟨.commit, ?_, by simp, hcm⟩⟩
          exact List.mem_append_left _ (List.mem_append_right _ (by simp))
        | ok vc =>
          have hres : updateOrder drv id data details =
              (.ok (id, data), (.begin :: .updateHeader data id ::
                detailUpdateStmts details) ++ [.commit]) := by
            rw [updateOrder, hvb, hh]
            dsimp only
            rw [hfe]
            dsimp only
            rw [hcm]
          rw [hres] at herr
          simp at herr

/-- Witness driver for C1: the order-header statements reject, everything
else succeeds. -/
def failHeaderDriver : Driver := fun s =>
  match s with
  | .insertOrder _ => .error (.driverError 42)
  | .updateHeader _ _ => .error (.driverError 43)
  | _ => .ok (some ⟨1⟩)

/-- Witness for C1: a failing header insert (and header update) yields a
trace with exactly one trailing `ROLLBACK` and rethrows the driver's
error unchanged. -/
theorem transactional_rollback_rethrow_witness :
    ((createOrder failHeaderDriver blankOrder []).2.count .rollback = 1 ∧
     (createOrder failHeaderDriver blankOrder []).2.getLast? =
       some .rollback ∧
     ((OrderError.driverError 42 = .insertionError ∧
        (failHeaderDriver (.insertOrder blankOrder) = .ok none ∨
         ∃ r, failHeaderDriver (.insertOrder blankOrder) = .ok (some r) ∧
           r.lastID = 0)) ∨
      ∃ s ∈ (createOrder failHeaderDriver blankOrder []).2,
        ¬ s = .rollback ∧ failHeaderDriver s = .error (.driverError 42))) ∧
    ((updateOrder failHeaderDriver 5 blankOrder []).2.count .rollback = 1 ∧
     (updateOrder failHeaderDriver 5 blankOrder []).2.getLast? =
       some .rollback ∧
     ∃ s ∈ (updateOrder failHeaderDriver 5 blankOrder []).2,
       ¬ s = .rollback ∧ failHeaderDriver s = .error (.driverError 43)) :=
  ⟨(transactional_rollback_rethrow failHeaderDriver ⟨some ⟨1⟩, rfl⟩
      ⟨some ⟨1⟩, rfl⟩).1 blankOrder [] (.driverError 42) rfl,
   (transactional_rollback_rethrow failHeaderDriver ⟨some ⟨1⟩, rfl⟩
      ⟨some ⟨1⟩, rfl⟩).2 5 blankOrder [] (.driverError 43) rfl⟩

end SqlExamples
